import Mathlib

/-!
Verification of the capability-discovery-and-proxy-synthesis engine of
autogen-fast-mcp (src/mcp_proxy.py).

The development shallowly embeds:
  * `get_python_type` (src/mcp_proxy.py lines 52-214): the recursive schema
    type resolver.  In the source it returns Python type-annotation strings
    ("int", "Union[str, int]", "dict[str, Any]", ...), and de-duplication is
    performed by membership tests on those strings, so the embedding returns
    the same strings.
  * the parameter-signature builder (lines 218-239): required list lookup,
    default handling, Optional fallback.
  * the synthesized stub body (lines 244-259): building the call-args dict
    from all parameters, filtering values that are Python `None`, and the
    session-per-call forwarding shape.
  * the registration loop (lines 25-44 and 250-274): discovery inside one
    client session, then one registration per discovered tool.

Raw JSON schema fragments are modelled by the `Schema` family: each field of
the constructor corresponds to a key the source reads (`$ref`, `type`,
`items`, `properties`, `additionalProperties`, `enum`, `anyOf`, `oneOf`,
`allOf`, `format`).  The recursive positions use dedicated mutual inductives
(`OptSchema`, `PropList`, ...) so that a structurally recursive size measure
exists; they are converted to ordinary `Option`/`List` values by accessors.
The resolver itself is the fuel-indexed fixpoint of the non-recursive
functional `resolveStep`; `get_python_type_eq` below recovers the
fixpoint equation, and adequacy of the fuel choice is proved.
-/

set_option maxHeartbeats 1000000

namespace McpProxy

/-- a JSON literal as it can occur in an `enum` list, classified by its
Python runtime kind.  Payloads carry the text Python `str()` / quoting
would produce where that is needed for `Literal[...]` rendering; the float
payload is the opaque `str(float)` rendering. -/
inductive JLit where
  | s (v : String)
  | i (v : Int)
  | f (v : String)
  | b (v : Bool)
  | other

/-- Python `isinstance(v, str)`. -/
def JLit.isStr : JLit → Bool
  | .s _ => true
  | _ => false

/-- Python `isinstance(v, int)`.  Note that Python booleans are instances
of `int`, which the source code relies on implicitly. -/
def JLit.isInt : JLit → Bool
  | .i _ => true
  | .b _ => true
  | _ => false

/-- Python `isinstance(v, (int, float))`; booleans again count as ints. -/
def JLit.isNum : JLit → Bool
  | .i _ => true
  | .b _ => true
  | .f _ => true
  | _ => false

/-- rendering of an enum literal as the source interpolates it into a
`Literal[...]` annotation: strings are wrapped in double quotes
(mcp_proxy.py line 122), everything else goes through `str()`
(lines 126 and 129).  `other` never reaches a `Literal` rendering because
it fails all three homogeneity checks. -/
def JLit.render : JLit → String
  | .s v => "\"" ++ v ++ "\""
  | .i n => toString n
  | .f raw => raw
  | .b true => "True"
  | .b false => "False"
  | .other => "<object>"

/-- the Python type-name string the mixed-enum fallback adds to its
`type_set` for one literal (mcp_proxy.py lines 132-143).  The `bool` test
there is dead code: `isinstance(True, int)` holds, so booleans are
classified as `int`. -/
def JLit.typeName : JLit → String
  | .s _ => "str"
  | .i _ => "int"
  | .b _ => "int"
  | .f _ => "float"
  | .other => "Any"

/-- the value of the `type` key of a schema fragment: absent, a single
type string, or a list of type strings. -/
inductive TypeField where
  | none : TypeField
  | str (t : String) : TypeField
  | list (ts : List String) : TypeField
deriving DecidableEq

mutual
/-- a raw JSON-schema fragment, with one constructor field per key the
source code reads.  `ref` models presence of `$ref`; `items`, `properties`
and `additionalProperties` model the sub-schema values of those keys
(`OptSchema.none` covers both an absent key and a Python-falsy value,
which the source treats alike); `enum` is the literal list when the key is
present; `anyOf`, `oneOf`, `allOf` are the listed sub-schemas when the
respective key is present. -/
inductive Schema where
  | mk (ref : Bool) (type : TypeField) (items : OptSchema)
       (properties : PropList) (addProps : OptSchema)
       (enum : Option (List JLit)) (anyOf : OptSchemaList)
       (oneOf : OptSchemaList) (allOf : OptSchemaList)
       (format : Option String) : Schema
/-- an optional sub-schema position, as a mutual inductive so a structural
size measure exists. -/
inductive OptSchema where
  | none : OptSchema
  | some : Schema → OptSchema
/-- an ordered `properties` mapping (name, sub-schema). -/
inductive PropList where
  | nil : PropList
  | cons : String → Schema → PropList → PropList
/-- an optional list-of-sub-schemas position (`anyOf` / `oneOf` / `allOf`). -/
inductive OptSchemaList where
  | none : OptSchemaList
  | some : SchemaList → OptSchemaList
/-- a list of sub-schemas. -/
inductive SchemaList where
  | nil : SchemaList
  | cons : Schema → SchemaList → SchemaList
end

/-- conversion of a `SchemaList` to an ordinary list. -/
def SchemaList.toList : SchemaList → List Schema
  | .nil => []
  | .cons s rest => s :: rest.toList

/-- conversion of a `PropList` to an ordinary association list. -/
def PropList.toList : PropList → List (String × Schema)
  | .nil => []
  | .cons n v rest => (n, v) :: rest.toList

/-- conversion of an `OptSchema` to an ordinary option. -/
def OptSchema.toOption : OptSchema → Option Schema
  | .none => Option.none
  | .some s => Option.some s

/-- conversion of an `OptSchemaList` to an optional ordinary list. -/
def OptSchemaList.toOption : OptSchemaList → Option (List Schema)
  | .none => Option.none
  | .some l => Option.some l.toList

/-- building a `PropList` from an ordinary association list. -/
def PropList.ofList : List (String × Schema) → PropList
  | [] => .nil
  | (n, v) :: rest => .cons n v (PropList.ofList rest)

/-- building a `SchemaList` from an ordinary list. -/
def SchemaList.ofList : List Schema → SchemaList
  | [] => .nil
  | s :: rest => .cons s (SchemaList.ofList rest)

/-- presence of the `$ref` key. -/
def Schema.ref : Schema → Bool
  | .mk r _ _ _ _ _ _ _ _ _ => r

/-- the `type` key. -/
def Schema.type : Schema → TypeField
  | .mk _ t _ _ _ _ _ _ _ _ => t

/-- the `items` key as an option. -/
def Schema.items : Schema → Option Schema
  | .mk _ _ it _ _ _ _ _ _ _ => it.toOption

/-- the `properties` key as an association list (absent key = empty). -/
def Schema.properties : Schema → List (String × Schema)
  | .mk _ _ _ props _ _ _ _ _ _ => props.toList

/-- the `additionalProperties` key, when it is a truthy dict sub-schema. -/
def Schema.addProps : Schema → Option Schema
  | .mk _ _ _ _ ap _ _ _ _ _ => ap.toOption

/-- the `enum` key as an optional literal list. -/
def Schema.enum : Schema → Option (List JLit)
  | .mk _ _ _ _ _ e _ _ _ _ => e

/-- the `anyOf` key as an optional sub-schema list. -/
def Schema.anyOf : Schema → Option (List Schema)
  | .mk _ _ _ _ _ _ ao _ _ _ => ao.toOption

/-- the `oneOf` key as an optional sub-schema list. -/
def Schema.oneOf : Schema → Option (List Schema)
  | .mk _ _ _ _ _ _ _ oo _ _ => oo.toOption

/-- the `allOf` key as an optional sub-schema list. -/
def Schema.allOf : Schema → Option (List Schema)
  | .mk _ _ _ _ _ _ _ _ alo _ => alo.toOption

/-- the `format` key. -/
def Schema.format : Schema → Option String
  | .mk _ _ _ _ _ _ _ _ _ fmt => fmt

/-- `param_info.copy()` followed by overwriting the `type` key
(mcp_proxy.py lines 69-70). -/
def Schema.withType (s : Schema) (tf : TypeField) : Schema :=
  match s with
  | .mk r _ it props ap e ao oo alo fmt => .mk r tf it props ap e ao oo alo fmt

/-- the same fragment with its `enum` key replaced; used to state that a
branch of the resolver ignores the `enum` key. -/
def Schema.withEnum (s : Schema) (e : Option (List JLit)) : Schema :=
  match s with
  | .mk r t it props ap _ ao oo alo fmt => .mk r t it props ap e ao oo alo fmt

/-- size contribution of the `type` field: a type list counts its length so
that substituting one of its members as the singular type strictly shrinks
the fragment. -/
def TypeField.tsz : TypeField → Nat
  | .none => 0
  | .str _ => 0
  | .list ts => 1 + ts.length

mutual
/-- structural size of a schema fragment, used as recursion fuel. -/
def Schema.sz : Schema → Nat
  | .mk _ t it props ap _ ao oo alo _ =>
    1 + t.tsz + it.sz + props.sz + ap.sz + ao.sz + oo.sz + alo.sz
/-- structural size. -/
def OptSchema.sz : OptSchema → Nat
  | .none => 0
  | .some s => 1 + s.sz
/-- structural size. -/
def PropList.sz : PropList → Nat
  | .nil => 0
  | .cons _ v rest => 1 + v.sz + rest.sz
/-- structural size. -/
def OptSchemaList.sz : OptSchemaList → Nat
  | .none => 0
  | .some l => 1 + l.sz
/-- structural size. -/
def SchemaList.sz : SchemaList → Nat
  | .nil => 0
  | .cons s rest => 1 + s.sz + rest.sz
end

/-- order-preserving de-duplication of a list of type strings, as performed
by the `if x not in acc: acc.append(x)` pattern of the source
(mcp_proxy.py lines 95-98 and 166-169). -/
def dedup (ts : List String) : List String :=
  ts.foldl (fun acc t => if t ∈ acc then acc else acc ++ [t]) []

/-- the ascending (Python `sorted`) order of the five type-name strings the
mixed-enum fallback can produce: capital `A` sorts before all lower-case
letters. -/
def kindOrder : List String := ["Any", "bool", "float", "int", "str"]

/-- `sorted(type_set)` of mcp_proxy.py line 144: the distinct type names of
the enum literals, in ascending string order.  Filtering the fixed sorted
universe by presence equals sorting the set. -/
def sortedKinds (vs : List JLit) : List String :=
  kindOrder.filter (fun k => vs.any (fun v => v.typeName = k))

/-- the enum branch of the resolver (mcp_proxy.py lines 116-146): an empty
enum list degrades to `str`; homogeneous string / int / numeric lists
become `Literal[...]`; any other mix falls back to a `Union` over the
sorted set of the literals' type names. -/
def enumResolve (vs : List JLit) : String :=
  if vs.isEmpty then "str"
  else if vs.all JLit.isStr then
    "Literal[" ++ String.intercalate ", " (vs.map JLit.render) ++ "]"
  else if vs.all JLit.isInt then
    "Literal[" ++ String.intercalate ", " (vs.map JLit.render) ++ "]"
  else if vs.all JLit.isNum then
    "Literal[" ++ String.intercalate ", " (vs.map JLit.render) ++ "]"
  else
    "Union[" ++ String.intercalate ", " (sortedKinds vs) ++ "]"

/-- the string-format sub-branch (mcp_proxy.py lines 147-157): every format
annotation resolves to `str`. -/
def stringFormat (fmt : Option String) : String :=
  match fmt with
  | Option.some f =>
    if f = "date" || f = "date-time" || f = "time" then "str"
    else if f = "uri" then "str"
    else if f = "email" then "str"
    else "str"
  | Option.none => "str"

/-- assembling a dict annotation from the de-duplicated property value
types (mcp_proxy.py lines 100-105 and 199-204): one distinct value type is
used directly, several are wrapped in a `Union`, none degrades to `Any`. -/
def dictFromValueTypes (vts : List String) : String :=
  match vts with
  | [vt] => "dict[str, " ++ vt ++ "]"
  | [] => "dict[str, Any]"
  | more => "dict[str, Union[" ++ String.intercalate ", " more ++ "]]"

/-- insertion of one key-value pair into an insertion-ordered association
list with Python dict semantics: an existing key keeps its position but
receives the new value, a new key is appended. -/
def updOne (a : List (String × Schema)) (kv : String × Schema) : List (String × Schema) :=
  if a.any (fun q => q.1 = kv.1) then
    a.map (fun q => if q.1 = kv.1 then (q.1, kv.2) else q)
  else a ++ [kv]

/-- Python `dict.update` on insertion-ordered association lists. -/
def updateAssoc (acc upd : List (String × Schema)) : List (String × Schema) :=
  upd.foldl updOne acc

/-- the allOf merge loop (mcp_proxy.py lines 181-189): fold the member
schemas left to right, merging `properties` of members whose `type` is
exactly the string `"object"`, stopping (with the all-object flag cleared)
at the first member that is not. -/
def mergeAllOfAux : List Schema → List (String × Schema) → Bool × List (String × Schema)
  | [], acc => (true, acc)
  | m :: rest, acc =>
    if m.type = TypeField.str "object" then
      mergeAllOfAux rest (updateAssoc acc m.properties)
    else (false, acc)

/-- the merged property map of an `allOf` list, as built by the source
when every member is an object schema. -/
def mergeProps (ls : List Schema) : List (String × Schema) :=
  (mergeAllOfAux ls []).2

/-- the `elif 'allOf' in param_info` branch and the chain tail after it
(mcp_proxy.py lines 176-214): the all-object merge, the bare
no-type/no-marker `Any` case, and the final `str` fallback. -/
def allOfBranch (rec : Schema → String) (pt : Option String) (s : Schema) : String :=
  match s.allOf with
  | Option.some ls =>
    if ls.isEmpty then "dict[str, Any]"
    else if (mergeAllOfAux ls []).1 && !(mergeProps ls).isEmpty then
      dictFromValueTypes (dedup ((mergeProps ls).map (fun p => rec p.2)))
    else "dict[str, Any]"
  | Option.none =>
    if pt = Option.none && !s.ref then "Any" else "str"

/-- the `elif 'anyOf' in param_info or 'oneOf' in param_info` branch
(mcp_proxy.py lines 158-175) and the chain after it: the chosen sub-schema
list (an existing `anyOf` key shadows `oneOf` even when its value is
empty), resolved, de-duplicated order-preservingly, collapsed when a
single type remains. -/
def anyOrBranch (rec : Schema → String) (pt : Option String) (s : Schema) : String :=
  if s.anyOf.isSome || s.oneOf.isSome then
    if (s.anyOf.getD (s.oneOf.getD [])).isEmpty then "Any"
    else
      match dedup ((s.anyOf.getD (s.oneOf.getD [])).map rec) with
      | [t] => t
      | ts => "Union[" ++ String.intercalate ", " ts ++ "]"
  else allOfBranch rec pt s

/-- the `elif 'enum' in param_info` branch (mcp_proxy.py lines 116-146),
the string branch after it (lines 147-157), and the rest of the chain. -/
def enumBranch (rec : Schema → String) (pt : Option String) (s : Schema) : String :=
  match s.enum with
  | Option.some vs => enumResolve vs
  | Option.none =>
    if pt = Option.some "string" then stringFormat s.format
    else anyOrBranch rec pt s

/-- the `elif param_type == 'array'` branch (mcp_proxy.py lines 80-87):
recurse into a truthy `items` sub-schema, degrade to `list[Any]`
otherwise. -/
def arrayBranch (rec : Schema → String) (s : Schema) : String :=
  match s.items with
  | Option.some it => "list[" ++ rec it ++ "]"
  | Option.none => "list[Any]"

/-- the `elif param_type == 'object'` branch (mcp_proxy.py lines 88-113):
with truthy `properties`, collect the de-duplicated property value types;
without them consult `additionalProperties`; degrade to an open string map
otherwise. -/
def objectBranch (rec : Schema → String) (s : Schema) : String :=
  match s.properties with
  | [] =>
    match s.addProps with
    | Option.some ap => "dict[str, " ++ rec ap ++ "]"
    | Option.none => "dict[str, Any]"
  | props => dictFromValueTypes (dedup (props.map (fun p => rec p.2)))

/-- one unfolding of the elif chain of `get_python_type`
(mcp_proxy.py lines 59-214) for an already-unwrapped singular type `pt`,
with `rec` standing for the recursive calls on sub-fragments.  The branch
order is exactly the chain order of the source: integer, number, boolean,
array, object, null, enum, string, anyOf/oneOf, allOf, the bare
no-type/no-marker case, and the final `str` fallback. -/
def typeChain (rec : Schema → String) (pt : Option String) (s : Schema) : String :=
  if pt = Option.some "integer" then "int"
  else if pt = Option.some "number" then "float"
  else if pt = Option.some "boolean" then "bool"
  else if pt = Option.some "array" then arrayBranch rec s
  else if pt = Option.some "object" then objectBranch rec s
  else if pt = Option.some "null" then "type(None)"
  else enumBranch rec pt s

/-- one unfolding of `get_python_type` itself: the `$ref` early return
(mcp_proxy.py lines 54-57), then the list-valued `type` handling
(lines 62-72): a singleton list is unwrapped in place, a longer (or empty)
list maps the resolver over copies of the fragment with each member
substituted as the singular type and joins the results in a `Union`
annotation without de-duplication. -/
def resolveStep (rec : Schema → String) (s : Schema) : String :=
  if s.ref then "dict[str, Any]"
  else
    match s.type with
    | .list [t] => typeChain rec (Option.some t) s
    | .list ts =>
      "Union[" ++
        String.intercalate ", "
          (ts.map (fun t => rec (s.withType (TypeField.str t)))) ++ "]"
    | .str t => typeChain rec (Option.some t) s
    | .none => typeChain rec Option.none s

/-- fuel-indexed iteration of `resolveStep`.  The zero-fuel fallback is
never reached when the fuel exceeds the fragment size (see
`resolveF_adequate`). -/
def resolveF : Nat → Schema → String
  | 0, _ => "Any"
  | n + 1, s => resolveStep (resolveF n) s

/-- the schema type resolver `get_python_type` of mcp_proxy.py
(lines 52-214), as the adequately fuelled fixpoint of `resolveStep`. -/
def get_python_type (s : Schema) : String := resolveF (s.sz + 1) s

/-- every schema fragment has positive size. -/
theorem Schema.sz_pos (s : Schema) : 0 < s.sz := by
  cases s with
  | mk r t it props ap e ao oo alo fmt =>
    simp only [Schema.sz]
    omega

/-- a present `items` sub-schema is smaller than its fragment. -/
theorem sz_lt_of_items {s it : Schema} (h : s.items = Option.some it) : it.sz < s.sz := by
  cases s with
  | mk r t it0 props ap e ao oo alo fmt =>
    cases it0 with
    | none => simp [Schema.items, OptSchema.toOption] at h
    | some x =>
      simp only [Schema.items, OptSchema.toOption, Option.some.injEq] at h
      subst h
      simp only [Schema.sz, OptSchema.sz]
      omega

/-- a present `additionalProperties` sub-schema is smaller than its
fragment. -/
theorem sz_lt_of_addProps {s ap : Schema} (h : s.addProps = Option.some ap) : ap.sz < s.sz := by
  cases s with
  | mk r t it props ap0 e ao oo alo fmt =>
    cases ap0 with
    | none => simp [Schema.addProps, OptSchema.toOption] at h
    | some x =>
      simp only [Schema.addProps, OptSchema.toOption, Option.some.injEq] at h
      subst h
      simp only [Schema.sz, OptSchema.sz]
      omega

/-- a property value is smaller than the property list holding it. -/
theorem propList_sz_lt_of_mem : ∀ {pl : PropList} {p : String × Schema},
    p ∈ pl.toList → p.2.sz < pl.sz
  | .nil, p, h => by simp [PropList.toList] at h
  | .cons n v rest, p, h => by
    simp only [PropList.toList, List.mem_cons] at h
    rcases h with h1 | h1
    · subst h1
      simp only [PropList.sz]
      omega
    · have := propList_sz_lt_of_mem h1
      simp only [PropList.sz]
      omega

/-- a property value is smaller than its fragment. -/
theorem props_sz_lt {s : Schema} {p : String × Schema} (h : p ∈ s.properties) :
    p.2.sz < s.sz := by
  cases s with
  | mk r t it props ap e ao oo alo fmt =>
    have := @propList_sz_lt_of_mem props p h
    simp only [Schema.sz]
    omega

/-- a member of a schema list is smaller than the list. -/
theorem schemaList_sz_lt_of_mem : ∀ {sl : SchemaList} {x : Schema},
    x ∈ sl.toList → x.sz < sl.sz
  | .nil, x, h => by simp [SchemaList.toList] at h
  | .cons y rest, x, h => by
    simp only [SchemaList.toList, List.mem_cons] at h
    rcases h with h1 | h1
    · subst h1
      simp only [SchemaList.sz]
      omega
    · have := schemaList_sz_lt_of_mem h1
      simp only [SchemaList.sz]
      omega

/-- an `anyOf` member is smaller than its fragment. -/
theorem anyOf_sz_lt {s : Schema} {l : List Schema} {x : Schema}
    (h : s.anyOf = Option.some l) (hx : x ∈ l) : x.sz < s.sz := by
  cases s with
  | mk r t it props ap e ao oo alo fmt =>
    cases ao with
    | none => simp [Schema.anyOf, OptSchemaList.toOption] at h
    | some sl =>
      simp only [Schema.anyOf, OptSchemaList.toOption, Option.some.injEq] at h
      subst h
      have := @schemaList_sz_lt_of_mem sl x hx
      simp only [Schema.sz, OptSchemaList.sz]
      omega

/-- a `oneOf` member is smaller than its fragment. -/
theorem oneOf_sz_lt {s : Schema} {l : List Schema} {x : Schema}
    (h : s.oneOf = Option.some l) (hx : x ∈ l) : x.sz < s.sz := by
  cases s with
  | mk r t it props ap e ao oo alo fmt =>
    cases oo with
    | none => simp [Schema.oneOf, OptSchemaList.toOption] at h
    | some sl =>
      simp only [Schema.oneOf, OptSchemaList.toOption, Option.some.injEq] at h
      subst h
      have := @schemaList_sz_lt_of_mem sl x hx
      simp only [Schema.sz, OptSchemaList.sz]
      omega

/-- an `allOf` member is smaller than its fragment. -/
theorem allOf_sz_lt {s : Schema} {l : List Schema} {x : Schema}
    (h : s.allOf = Option.some l) (hx : x ∈ l) : x.sz < s.sz := by
  cases s with
  | mk r t it props ap e ao oo alo fmt =>
    cases alo with
    | none => simp [Schema.allOf, OptSchemaList.toOption] at h
    | some sl =>
      simp only [Schema.allOf, OptSchemaList.toOption, Option.some.injEq] at h
      subst h
      have := @schemaList_sz_lt_of_mem sl x hx
      simp only [Schema.sz, OptSchemaList.sz]
      omega

/-- a schema drawn from the combined anyOf/oneOf member selection is
smaller than its fragment. -/
theorem anyOneOf_sz_lt {s : Schema} {x : Schema}
    (hx : x ∈ s.anyOf.getD (s.oneOf.getD [])) : x.sz < s.sz := by
  cases hao : s.anyOf with
  | some l =>
    rw [hao] at hx
    exact anyOf_sz_lt hao hx
  | none =>
    rw [hao] at hx
    cases hoo : s.oneOf with
    | some l =>
      rw [hoo] at hx
      exact oneOf_sz_lt hoo hx
    | none =>
      rw [hoo] at hx
      simp at hx

/-- substituting a singular type for a list-valued `type` strictly shrinks
the fragment. -/
theorem withType_sz_lt {s : Schema} {ts : List String}
    (h : s.type = TypeField.list ts) (t : String) :
    (s.withType (TypeField.str t)).sz < s.sz := by
  cases s with
  | mk r t0 it props ap e ao oo alo fmt =>
    simp only [Schema.type] at h
    subst h
    simp only [Schema.withType, Schema.sz, TypeField.tsz]
    omega

/-- values in the result of one `updOne` step come from the accumulator or
from the inserted pair. -/
theorem updOne_mem {a : List (String × Schema)} {kv p : String × Schema}
    (h : p ∈ updOne a kv) :
    (∃ q ∈ a, p.2 = q.2) ∨ p.2 = kv.2 := by
  unfold updOne at h
  split at h
  · rcases List.mem_map.mp h with ⟨q, hq, hqe⟩
    by_cases hk : q.1 = kv.1
    · right
      rw [if_pos hk] at hqe
      rw [← hqe]
    · left
      rw [if_neg hk] at hqe
      exact ⟨q, hq, by rw [← hqe]⟩
  · rcases List.mem_append.mp h with hq | hq
    · exact Or.inl ⟨p, hq, rfl⟩
    · have : p = kv := by simpa using hq
      subst this
      exact Or.inr rfl

/-- values in a merged association list come from the accumulator or from
the update list. -/
theorem updateAssoc_mem {ps : List (String × Schema)} :
    ∀ {acc : List (String × Schema)} {p : String × Schema},
      p ∈ updateAssoc acc ps →
      (∃ q ∈ acc, p.2 = q.2) ∨ (∃ q ∈ ps, p.2 = q.2) := by
  induction ps with
  | nil => intro acc p h; exact Or.inl ⟨p, h, rfl⟩
  | cons kv rest ih =>
    intro acc p h
    have h2 : p ∈ updateAssoc (updOne acc kv) rest := h
    rcases ih h2 with hin | hin
    · rcases hin with ⟨q, hq, hqe⟩
      rcases updOne_mem hq with ⟨q2, hq2, hq2e⟩ | hkv
      · exact Or.inl ⟨q2, hq2, by rw [hqe, hq2e]⟩
      · exact Or.inr ⟨kv, List.mem_cons_self kv rest, by rw [hqe, hkv]⟩
    · rcases hin with ⟨q, hq, hqe⟩
      exact Or.inr ⟨q, List.mem_cons_of_mem kv hq, hqe⟩

/-- values of the allOf merge come from some member's properties. -/
theorem mergeAllOfAux_mem {ls : List Schema} :
    ∀ {acc : List (String × Schema)} {p : String × Schema},
      p ∈ (mergeAllOfAux ls acc).2 →
      (∃ q ∈ acc, p.2 = q.2) ∨ (∃ m ∈ ls, ∃ q ∈ m.properties, p.2 = q.2) := by
  induction ls with
  | nil => intro acc p h; exact Or.inl ⟨p, h, rfl⟩
  | cons m rest ih =>
    intro acc p h
    unfold mergeAllOfAux at h
    split at h
    · rcases ih h with hin | hin
      · rcases hin with ⟨q, hq, hqe⟩
        rcases updateAssoc_mem hq with ⟨q2, hq2, hq2e⟩ | ⟨q2, hq2, hq2e⟩
        · exact Or.inl ⟨q2, hq2, by rw [hqe, hq2e]⟩
        · exact Or.inr ⟨m, List.mem_cons_self m rest, q2, hq2, by rw [hqe, hq2e]⟩
      · rcases hin with ⟨m2, hm2, q, hq, hqe⟩
        exact Or.inr ⟨m2, List.mem_cons_of_mem m hm2, q, hq, hqe⟩
    · exact Or.inl ⟨p, h, rfl⟩

/-- a value of the merged allOf property map is smaller than the fragment
holding the `allOf` key. -/
theorem merged_sz_lt {s : Schema} {ls : List Schema}
    (hall : s.allOf = Option.some ls) {p : String × Schema}
    (hp : p ∈ mergeProps ls) : p.2.sz < s.sz := by
  rcases mergeAllOfAux_mem hp with ⟨q, hq, _⟩ | ⟨m, hm, q, hq, hqe⟩
  · simp at hq
  · have h1 : q.2.sz < m.sz := props_sz_lt hq
    have h2 : m.sz < s.sz := allOf_sz_lt hall hm
    rw [hqe]
    omega

/-- the allOf tail of the chain is a congruence in its recursive-call
argument. -/
theorem allOfBranch_congr {r1 r2 : Schema → String} (pt : Option String) (s : Schema)
    (h : ∀ x : Schema, x.sz < s.sz → r1 x = r2 x) :
    allOfBranch r1 pt s = allOfBranch r2 pt s := by
  unfold allOfBranch
  cases hao : s.allOf with
  | none => rfl
  | some ls =>
    have hm : (mergeProps ls).map (fun p => r1 p.2) = (mergeProps ls).map (fun p => r2 p.2) :=
      List.map_congr_left (fun p hp => h p.2 (merged_sz_lt hao hp))
    simp only [hm]

/-- the anyOf/oneOf tail of the chain is a congruence in its
recursive-call argument. -/
theorem anyOrBranch_congr {r1 r2 : Schema → String} (pt : Option String) (s : Schema)
    (h : ∀ x : Schema, x.sz < s.sz → r1 x = r2 x) :
    anyOrBranch r1 pt s = anyOrBranch r2 pt s := by
  unfold anyOrBranch
  have hm : (s.anyOf.getD (s.oneOf.getD [])).map r1 =
      (s.anyOf.getD (s.oneOf.getD [])).map r2 :=
    List.map_congr_left (fun x hx => h x (anyOneOf_sz_lt hx))
  rw [hm, allOfBranch_congr pt s h]

/-- the enum tail of the chain is a congruence in its recursive-call
argument. -/
theorem enumBranch_congr {r1 r2 : Schema → String} (pt : Option String) (s : Schema)
    (h : ∀ x : Schema, x.sz < s.sz → r1 x = r2 x) :
    enumBranch r1 pt s = enumBranch r2 pt s := by
  unfold enumBranch
  rw [anyOrBranch_congr pt s h]

/-- the array branch is a congruence in its recursive-call argument. -/
theorem arrayBranch_congr {r1 r2 : Schema → String} (s : Schema)
    (h : ∀ x : Schema, x.sz < s.sz → r1 x = r2 x) :
    arrayBranch r1 s = arrayBranch r2 s := by
  unfold arrayBranch
  cases hit : s.items with
  | none => rfl
  | some it => simp only [h it (sz_lt_of_items hit)]

/-- the object branch is a congruence in its recursive-call argument. -/
theorem objectBranch_congr {r1 r2 : Schema → String} (s : Schema)
    (h : ∀ x : Schema, x.sz < s.sz → r1 x = r2 x) :
    objectBranch r1 s = objectBranch r2 s := by
  unfold objectBranch
  cases hp : s.properties with
  | nil =>
    cases hap : s.addProps with
    | none => rfl
    | some ap => simp only [h ap (sz_lt_of_addProps hap)]
  | cons q qs =>
    have hm : (q :: qs).map (fun p => r1 p.2) = (q :: qs).map (fun p => r2 p.2) :=
      List.map_congr_left (fun p hp2 => h p.2 (props_sz_lt (hp ▸ hp2)))
    simp only [hm]

/-- the elif chain is a congruence in its recursive-call argument: two
recursion callbacks agreeing on all strictly smaller fragments produce the
same result. -/
theorem typeChain_congr {r1 r2 : Schema → String} (pt : Option String) (s : Schema)
    (h : ∀ x : Schema, x.sz < s.sz → r1 x = r2 x) :
    typeChain r1 pt s = typeChain r2 pt s := by
  unfold typeChain
  rw [enumBranch_congr pt s h, arrayBranch_congr s h, objectBranch_congr s h]

/-- one resolver unfolding is a congruence in its recursive-call
argument. -/
theorem resolveStep_congr {r1 r2 : Schema → String} (s : Schema)
    (h : ∀ x : Schema, x.sz < s.sz → r1 x = r2 x) :
    resolveStep r1 s = resolveStep r2 s := by
  unfold resolveStep
  by_cases href : s.ref
  · rw [if_pos href, if_pos href]
  rw [if_neg href, if_neg href]
  cases hty : s.type with
  | none => exact typeChain_congr Option.none s h
  | str t => exact typeChain_congr (Option.some t) s h
  | list ts =>
    match ts, hty with
    | [], hty => rfl
    | [t], hty => exact typeChain_congr (Option.some t) s h
    | t1 :: t2 :: rest, hty =>
      have hm : (t1 :: t2 :: rest).map (fun t => r1 (s.withType (TypeField.str t))) =
          (t1 :: t2 :: rest).map (fun t => r2 (s.withType (TypeField.str t))) :=
        List.map_congr_left (fun t _ => h _ (withType_sz_lt hty t))
      show "Union[" ++ String.intercalate ", "
          ((t1 :: t2 :: rest).map (fun t => r1 (s.withType (TypeField.str t)))) ++ "]" =
        "Union[" ++ String.intercalate ", "
          ((t1 :: t2 :: rest).map (fun t => r2 (s.withType (TypeField.str t)))) ++ "]"
      rw [hm]

/-- the fuelled resolver does not depend on the fuel once the fuel exceeds
the fragment size. -/
theorem resolveF_eq_of_le {k : Nat} :
    ∀ s : Schema, s.sz ≤ k → ∀ n m : Nat, s.sz < n → s.sz < m →
      resolveF n s = resolveF m s := by
  induction k with
  | zero =>
    intro s hs
    have := Schema.sz_pos s
    omega
  | succ k ih =>
    intro s hs n m hn hm
    obtain ⟨a, rfl⟩ : ∃ a, n = a + 1 := ⟨n - 1, by omega⟩
    obtain ⟨b, rfl⟩ : ∃ b, m = b + 1 := ⟨m - 1, by omega⟩
    show resolveStep (resolveF a) s = resolveStep (resolveF b) s
    exact resolveStep_congr s (fun x hx =>
      ih x (by omega) a b (by omega) (by omega))

/-- adequately fuelled runs of the resolver compute `get_python_type`. -/
theorem get_python_type_fuel {n : Nat} {s : Schema} (h : s.sz < n) :
    resolveF n s = get_python_type s :=
  resolveF_eq_of_le s (Nat.le_refl s.sz) n (s.sz + 1) h (Nat.lt_succ_self _)

/-- the fixpoint equation of the resolver: `get_python_type` is one
`resolveStep` unfolding applied to itself, i.e. the Lean transcription of
the recursive Python function. -/
theorem get_python_type_eq (s : Schema) : get_python_type s = resolveStep get_python_type s := by
  show resolveStep (resolveF s.sz) s = _
  exact resolveStep_congr s (fun x hx => get_python_type_fuel hx)

/-- evaluation of the accessors on an explicit constructor. -/
@[simp] theorem ref_mk (r t it props ap e ao oo alo fmt) :
    (Schema.mk r t it props ap e ao oo alo fmt).ref = r := rfl

/-- evaluation of the accessors on an explicit constructor. -/
@[simp] theorem type_mk (r t it props ap e ao oo alo fmt) :
    (Schema.mk r t it props ap e ao oo alo fmt).type = t := rfl

/-- evaluation of the accessors on an explicit constructor. -/
@[simp] theorem items_mk (r t it props ap e ao oo alo fmt) :
    (Schema.mk r t it props ap e ao oo alo fmt).items = it.toOption := rfl

/-- evaluation of the accessors on an explicit constructor. -/
@[simp] theorem properties_mk (r t it props ap e ao oo alo fmt) :
    (Schema.mk r t it props ap e ao oo alo fmt).properties = props.toList := rfl

/-- evaluation of the accessors on an explicit constructor. -/
@[simp] theorem addProps_mk (r t it props ap e ao oo alo fmt) :
    (Schema.mk r t it props ap e ao oo alo fmt).addProps = ap.toOption := rfl

/-- evaluation of the accessors on an explicit constructor. -/
@[simp] theorem enum_mk (r t it props ap e ao oo alo fmt) :
    (Schema.mk r t it props ap e ao oo alo fmt).enum = e := rfl

/-- evaluation of the accessors on an explicit constructor. -/
@[simp] theorem anyOf_mk (r t it props ap e ao oo alo fmt) :
    (Schema.mk r t it props ap e ao oo alo fmt).anyOf = ao.toOption := rfl

/-- evaluation of the accessors on an explicit constructor. -/
@[simp] theorem oneOf_mk (r t it props ap e ao oo alo fmt) :
    (Schema.mk r t it props ap e ao oo alo fmt).oneOf = oo.toOption := rfl

/-- evaluation of the accessors on an explicit constructor. -/
@[simp] theorem allOf_mk (r t it props ap e ao oo alo fmt) :
    (Schema.mk r t it props ap e ao oo alo fmt).allOf = alo.toOption := rfl

/-- evaluation of the accessors on an explicit constructor. -/
@[simp] theorem format_mk (r t it props ap e ao oo alo fmt) :
    (Schema.mk r t it props ap e ao oo alo fmt).format = fmt := rfl

/-- round trip of the property-list conversions. -/
@[simp] theorem propList_toList_ofList : ∀ l : List (String × Schema),
    (PropList.ofList l).toList = l
  | [] => rfl
  | (n, v) :: rest => by
    simp only [PropList.ofList, PropList.toList]
    exact congrArg _ (propList_toList_ofList rest)

/-- round trip of the schema-list conversions. -/
@[simp] theorem schemaList_toList_ofList : ∀ l : List Schema,
    (SchemaList.ofList l).toList = l
  | [] => rfl
  | s :: rest => by
    simp only [SchemaList.ofList, SchemaList.toList]
    exact congrArg _ (schemaList_toList_ofList rest)

/-!
The capability signature builder and the synthesized stub
(mcp_proxy.py lines 36-49 and 216-274).
-/

/-- a JSON value as it occurs in declared defaults and in invocation
arguments; `none` is Python `None` / JSON `null`. -/
inductive JVal where
  | none : JVal
  | s (v : String) : JVal
  | i (v : Int) : JVal
  | f (v : String) : JVal
  | b (v : Bool) : JVal
  | arr (vs : List JVal) : JVal
  | obj (kvs : List (String × JVal)) : JVal

/-- Python `v is None`. -/
def JVal.isNone : JVal → Bool
  | .none => true
  | _ => false

/-- the information the builder reads for one declared property: its
schema fragment (handed to `get_python_type`, which never reads the
`default` key) and the value of its `default` key.  A JSON `null` default
is modelled as `Option.some JVal.none`; Python `dict.get` returns `None`
for both an absent key and a null value, which the guard
`if default_val is not None` then treats alike. -/
structure PropInfo where
  schema : Schema
  dflt : Option JVal

/-- how one synthesized stub parameter treats omission, mirroring the
three generated parameter shapes of mcp_proxy.py lines 218-237:
a bare required parameter, a parameter with a non-None declared default,
or an `Optional[...] = None` parameter. -/
inductive ParamKind where
  | required : ParamKind
  | withDefault (v : JVal) : ParamKind
  | optionalNone : ParamKind

/-- one built parameter: name, resolved annotation string, and kind.
This is the `ParameterSpec` of the specification, with `required` and
`default` fused into `kind` exactly as the generated code fuses them. -/
structure ParameterSpec where
  name : String
  type : String
  kind : ParamKind

/-- building one parameter (mcp_proxy.py lines 216-237): the `required`
list is consulted first; only outside it is the declared default looked
up, and a missing-or-null default yields the `Optional[...] = None`
shape. -/
def buildParam (required : List String) (name : String) (info : PropInfo) : ParameterSpec :=
  let ty := get_python_type info.schema
  if name ∈ required then ⟨name, ty, ParamKind.required⟩
  else
    let dv := info.dflt.getD JVal.none
    if dv.isNone then ⟨name, ty, ParamKind.optionalNone⟩
    else ⟨name, ty, ParamKind.withDefault dv⟩

/-- building the full signature (the property loop of mcp_proxy.py
lines 46-49 and 216-239): declaration order is preserved and the reserved
`ctx` parameter is skipped. -/
def buildSignature (props : List (String × PropInfo)) (required : List String) :
    List ParameterSpec :=
  (props.filter (fun p => p.1 ≠ "ctx")).map (fun p => buildParam required p.1 p.2)

/-- the value a stub parameter is bound to at invocation time: the
caller-supplied argument when present, otherwise the generated default
(the declared default for defaulted parameters, the `None` sentinel for
`Optional[...] = None` parameters; a required parameter is only bound
after `callOk` ensured an argument is present). -/
def bindParam (args : List (String × JVal)) (p : ParameterSpec) : JVal :=
  match List.lookup p.name args with
  | Option.some v => v
  | Option.none =>
    match p.kind with
    | ParamKind.withDefault v => v
    | _ => JVal.none

/-- Python function-call admissibility of a keyword invocation: every
required parameter receives an argument and no unknown keyword is passed;
otherwise the interpreter raises `TypeError` before the stub body runs. -/
def callOk (sig : List ParameterSpec) (args : List (String × JVal)) : Bool :=
  (sig.all (fun p =>
    match p.kind with
    | ParamKind.required => (List.lookup p.name args).isSome
    | _ => true))
  && args.all (fun kv => sig.any (fun p => p.name = kv.1))

/-- the payload the stub body forwards (mcp_proxy.py lines 244-256): the
call-args dict lists every parameter in declaration order, then the
comprehension `{k: v for k, v in ....items() if v is not None}` drops
exactly the entries whose bound value is `None`.  `Option.none` models the
interpreter rejecting the invocation before the body runs. -/
def stubPayload (sig : List ParameterSpec) (args : List (String × JVal)) :
    Option (List (String × JVal)) :=
  if callOk sig args then
    Option.some ((sig.map (fun p => (p.name, bindParam args p))).filter
      (fun kv => !kv.2.isNone))
  else Option.none

/-- a discovered capability as the registration loop consumes it
(mcp_proxy.py lines 36-40): name, description, and the `properties` /
`required` parts of its input schema. -/
structure Tool where
  name : String
  description : String
  properties : List (String × PropInfo)
  required : List String

/-- the signature the proxy synthesizes for one discovered tool. -/
def toolSignature (t : Tool) : List ParameterSpec :=
  buildSignature t.properties t.required

/-- the registrations performed by the loop of mcp_proxy.py lines 36-274:
one `@mcp.tool` registration per discovered tool, in discovery order,
published under the tool's own name, with no duplicate-name check of any
kind (the function is total and never raises). -/
def setupRegistrations (tools : List Tool) : List (String × List ParameterSpec) :=
  tools.map (fun t => (t.name, toolSignature t))

/-!
Session-lifecycle traces of setup and of one stub invocation
(mcp_proxy.py lines 25-33 and 251-259).
-/

/-- observable transport/lifecycle events. -/
inductive Event where
  | openSession : Event
  | listTools : Event
  | closeSession : Event
  | register (name : String) : Event
  | callRemote (name : String) (args : List (String × JVal)) : Event

/-- recognizer for the discovery event. -/
def Event.isListTools : Event → Bool
  | .listTools => true
  | _ => false

/-- recognizer for registration events. -/
def Event.isRegister : Event → Bool
  | .register _ => true
  | _ => false

/-- an `async with MCPClient(...)` block: the session is opened before the
body and closed on every exit path after it. -/
def sessionScoped (body : List Event) : List Event :=
  [Event.openSession] ++ body ++ [Event.closeSession]

/-- the discovery pass of `setup_proxy_tools` (mcp_proxy.py lines 25-33):
one `list_tools` call inside one scoped session. -/
def discoveryPhase : List Event := sessionScoped [Event.listTools]

/-- the registration loop (mcp_proxy.py lines 36-274): one local
registration per tool, no remote traffic. -/
def registrationPhase (tools : List Tool) : List Event :=
  tools.map (fun t => Event.register t.name)

/-- the full `setup_proxy_tools` trace: the scoped discovery session runs
and closes before any registration happens. -/
def setupTrace (tools : List Tool) : List Event :=
  discoveryPhase ++ registrationPhase tools

/-- the outcome of one forwarded call as the remote endpoint reports it:
a success payload, an endpoint-reported failure, or a transport
failure. -/
inductive CallOutcome where
  | success (v : JVal) : CallOutcome
  | remoteError (msg : String) : CallOutcome
  | transportError (msg : String) : CallOutcome

/-- one invocation of a synthesized stub (mcp_proxy.py lines 251-259),
parameterized by the remote endpoint behaviour: when the keyword
invocation is admissible, the stub opens a fresh session, performs
exactly one forwarded call with the filtered payload, closes the session
(the `async with` closes it on success and on exception alike), and
returns the remote outcome unchanged. -/
def stubInvoke (remote : String → List (String × JVal) → CallOutcome)
    (toolName : String) (sig : List ParameterSpec) (args : List (String × JVal)) :
    Option (CallOutcome × List Event) :=
  match stubPayload sig args with
  | Option.none => Option.none
  | Option.some payload =>
    Option.some (remote toolName payload,
      sessionScoped [Event.callRemote toolName payload])

/-!
Evaluation lemmas over symbolic fragments: one resolver unfolding under
field hypotheses, used to settle the claims below.
-/

/-- resolver unfolding for a fragment without `$ref` whose `type` is a
single string. -/
theorem resolveStep_type_str {rec : Schema → String} {s : Schema} {t : String}
    (href : s.ref = false) (hty : s.type = TypeField.str t) :
    resolveStep rec s = typeChain rec (Option.some t) s := by
  unfold resolveStep
  rw [href, hty]
  rfl

/-- resolver unfolding for a fragment without `$ref` and without a `type`
key. -/
theorem resolveStep_type_none {rec : Schema → String} {s : Schema}
    (href : s.ref = false) (hty : s.type = TypeField.none) :
    resolveStep rec s = typeChain rec Option.none s := by
  unfold resolveStep
  rw [href, hty]
  rfl

/-- resolver unfolding for a fragment without `$ref` whose `type` is a
singleton list: the element is unwrapped in place. -/
theorem resolveStep_type_single {rec : Schema → String} {s : Schema} {t : String}
    (href : s.ref = false) (hty : s.type = TypeField.list [t]) :
    resolveStep rec s = typeChain rec (Option.some t) s := by
  unfold resolveStep
  rw [href, hty]
  rfl

/-- resolver unfolding for a fragment without `$ref` whose `type` is a
non-singleton list: each member is substituted as the singular type of a
copy of the fragment and the recursive results joined in a `Union`
annotation, without de-duplication. -/
theorem resolveStep_type_list {rec : Schema → String} {s : Schema} {ts : List String}
    (href : s.ref = false) (hty : s.type = TypeField.list ts) (hlen : ts.length ≠ 1) :
    resolveStep rec s =
      "Union[" ++ String.intercalate ", "
        (ts.map (fun t => rec (s.withType (TypeField.str t)))) ++ "]" := by
  unfold resolveStep
  rw [href, hty]
  match ts, hlen with
  | [], _ => rfl
  | [t], hlen => exact absurd rfl hlen
  | t1 :: t2 :: rest, _ => rfl

/-- chain evaluation at the recognized singular types. -/
theorem typeChain_integer {rec : Schema → String} {s : Schema} :
    typeChain rec (Option.some "integer") s = "int" := by
  unfold typeChain
  rfl

/-- chain evaluation at the recognized singular types. -/
theorem typeChain_number {rec : Schema → String} {s : Schema} :
    typeChain rec (Option.some "number") s = "float" := by
  unfold typeChain
  rfl

/-- chain evaluation at the recognized singular types. -/
theorem typeChain_boolean {rec : Schema → String} {s : Schema} :
    typeChain rec (Option.some "boolean") s = "bool" := by
  unfold typeChain
  rfl

/-- chain evaluation at the recognized singular types. -/
theorem typeChain_array {rec : Schema → String} {s : Schema} :
    typeChain rec (Option.some "array") s = arrayBranch rec s := by
  unfold typeChain
  rfl

/-- chain evaluation at the recognized singular types. -/
theorem typeChain_object {rec : Schema → String} {s : Schema} :
    typeChain rec (Option.some "object") s = objectBranch rec s := by
  unfold typeChain
  rfl

/-- chain evaluation at the recognized singular types. -/
theorem typeChain_null {rec : Schema → String} {s : Schema} :
    typeChain rec (Option.some "null") s = "type(None)" := by
  unfold typeChain
  rfl

/-- without a singular type the chain falls through to the enum branch. -/
theorem typeChain_pt_none {rec : Schema → String} {s : Schema} :
    typeChain rec Option.none s = enumBranch rec Option.none s := by
  unfold typeChain
  rfl

/-- with a singular type outside the six recognized kinds the chain falls
through to the enum branch. -/
theorem typeChain_other {rec : Schema → String} {s : Schema} {t : String}
    (h1 : t ≠ "integer") (h2 : t ≠ "number") (h3 : t ≠ "boolean")
    (h4 : t ≠ "array") (h5 : t ≠ "object") (h6 : t ≠ "null") :
    typeChain rec (Option.some t) s = enumBranch rec (Option.some t) s := by
  unfold typeChain
  rw [if_neg (by simp [h1]), if_neg (by simp [h2]), if_neg (by simp [h3]),
    if_neg (by simp [h4]), if_neg (by simp [h5]), if_neg (by simp [h6])]

/-- a present `enum` key resolves through `enumResolve`, whatever the
singular type was. -/
theorem enumBranch_enum {rec : Schema → String} {pt : Option String} {s : Schema}
    {vs : List JLit} (h : s.enum = Option.some vs) :
    enumBranch rec pt s = enumResolve vs := by
  unfold enumBranch
  rw [h]

/-- without an `enum` key and away from the string branch the chain falls
through to the anyOf/oneOf branch. -/
theorem enumBranch_no_enum {rec : Schema → String} {pt : Option String} {s : Schema}
    (he : s.enum = Option.none) (hstr : pt ≠ Option.some "string") :
    enumBranch rec pt s = anyOrBranch rec pt s := by
  unfold enumBranch
  rw [he, if_neg hstr]

/-- without `anyOf` and `oneOf` keys the chain falls through to the allOf
branch. -/
theorem anyOrBranch_none {rec : Schema → String} {pt : Option String} {s : Schema}
    (ha : s.anyOf = Option.none) (ho : s.oneOf = Option.none) :
    anyOrBranch rec pt s = allOfBranch rec pt s := by
  unfold anyOrBranch
  rw [ha, ho]
  rfl

/-- unfolding of the allOf branch for a present `allOf` key. -/
theorem allOfBranch_some {rec : Schema → String} {pt : Option String} {s : Schema}
    {ls : List Schema} (h : s.allOf = Option.some ls) :
    allOfBranch rec pt s =
      (if ls.isEmpty then "dict[str, Any]"
       else if (mergeAllOfAux ls []).1 && !(mergeProps ls).isEmpty then
         dictFromValueTypes (dedup ((mergeProps ls).map (fun p => rec p.2)))
       else "dict[str, Any]") := by
  unfold allOfBranch
  rw [h]

/-- the object branch of an empty-properties fragment without
`additionalProperties` degrades to the open string map. -/
theorem objectBranch_nil {rec : Schema → String} {s : Schema}
    (hp : s.properties = []) (ha : s.addProps = Option.none) :
    objectBranch rec s = "dict[str, Any]" := by
  unfold objectBranch
  rw [hp, ha]

/-- the object branch with nonempty properties collects the de-duplicated
property value types. -/
theorem objectBranch_cons {rec : Schema → String} {s : Schema}
    {q : String × Schema} {qs : List (String × Schema)}
    (hp : s.properties = q :: qs) :
    objectBranch rec s = dictFromValueTypes (dedup ((q :: qs).map (fun p => rec p.2))) := by
  unfold objectBranch
  rw [hp]

/-- when every member is an object schema the merge loop keeps the
all-object flag. -/
theorem mergeAllOfAux_fst_true {ls : List Schema}
    (h : ∀ m ∈ ls, m.type = TypeField.str "object") :
    ∀ acc, (mergeAllOfAux ls acc).1 = true := by
  induction ls with
  | nil => intro acc; rfl
  | cons m rest ih =>
    intro acc
    unfold mergeAllOfAux
    rw [if_pos (h m (List.mem_cons_self m rest))]
    exact ih (fun x hx => h x (List.mem_cons_of_mem m hx)) _

/-- when some member is not an object schema the merge loop clears the
all-object flag. -/
theorem mergeAllOfAux_fst_false {ls : List Schema} :
    (∃ m ∈ ls, ¬ m.type = TypeField.str "object") →
    ∀ acc, (mergeAllOfAux ls acc).1 = false := by
  induction ls with
  | nil =>
    intro h acc
    rcases h with ⟨m, hm, _⟩
    simp at hm
  | cons m rest ih =>
    intro h acc
    unfold mergeAllOfAux
    by_cases hm : m.type = TypeField.str "object"
    · rw [if_pos hm]
      apply ih
      rcases h with ⟨m2, hm2, hne⟩
      rcases List.mem_cons.mp hm2 with heq | hm2r
      · exact absurd (heq ▸ hm) hne
      · exact ⟨m2, hm2r, hne⟩
    · rw [if_neg hm]

/-- replacing the `enum` key leaves the `$ref` marker unchanged. -/
theorem withEnum_ref (s : Schema) (e : Option (List JLit)) :
    (s.withEnum e).ref = s.ref := by
  cases s with
  | mk r t it props ap e0 ao oo alo fmt => rfl

/-- replacing the `enum` key leaves the `type` key unchanged. -/
theorem withEnum_type (s : Schema) (e : Option (List JLit)) :
    (s.withEnum e).type = s.type := by
  cases s with
  | mk r t it props ap e0 ao oo alo fmt => rfl

/-- replacing the `enum` key leaves the `items` key unchanged. -/
theorem withEnum_items (s : Schema) (e : Option (List JLit)) :
    (s.withEnum e).items = s.items := by
  cases s with
  | mk r t it props ap e0 ao oo alo fmt => rfl

/-- replacing the `enum` key leaves the `properties` key unchanged. -/
theorem withEnum_properties (s : Schema) (e : Option (List JLit)) :
    (s.withEnum e).properties = s.properties := by
  cases s with
  | mk r t it props ap e0 ao oo alo fmt => rfl

/-- replacing the `enum` key leaves `additionalProperties` unchanged. -/
theorem withEnum_addProps (s : Schema) (e : Option (List JLit)) :
    (s.withEnum e).addProps = s.addProps := by
  cases s with
  | mk r t it props ap e0 ao oo alo fmt => rfl

/-- the array branch only reads the `items` key, so it ignores a
replacement of the `enum` key. -/
theorem arrayBranch_withEnum {rec : Schema → String} {s : Schema}
    {e : Option (List JLit)} :
    arrayBranch rec (s.withEnum e) = arrayBranch rec s := by
  unfold arrayBranch
  rw [withEnum_items]

/-- the object branch only reads the `properties` and
`additionalProperties` keys, so it ignores a replacement of the `enum`
key. -/
theorem objectBranch_withEnum {rec : Schema → String} {s : Schema}
    {e : Option (List JLit)} :
    objectBranch rec (s.withEnum e) = objectBranch rec s := by
  unfold objectBranch
  rw [withEnum_properties, withEnum_addProps]

/-!
Concrete fragments used by the claims.
-/

/-- a fragment with only a `type` key. -/
def typeOnly (tf : TypeField) : Schema :=
  Schema.mk false tf OptSchema.none PropList.nil OptSchema.none Option.none
    OptSchemaList.none OptSchemaList.none OptSchemaList.none Option.none

/-- a fragment with only an `enum` key. -/
def enumOnly (vs : List JLit) : Schema :=
  Schema.mk false TypeField.none OptSchema.none PropList.nil OptSchema.none
    (Option.some vs) OptSchemaList.none OptSchemaList.none OptSchemaList.none Option.none

/-- a fragment with `type` and `enum` keys. -/
def typeEnum (tf : TypeField) (vs : List JLit) : Schema :=
  Schema.mk false tf OptSchema.none PropList.nil OptSchema.none
    (Option.some vs) OptSchemaList.none OptSchemaList.none OptSchemaList.none Option.none

/-- an object fragment with the given properties. -/
def objFragment (props : List (String × Schema)) : Schema :=
  Schema.mk false (TypeField.str "object") OptSchema.none (PropList.ofList props)
    OptSchema.none Option.none OptSchemaList.none OptSchemaList.none OptSchemaList.none
    Option.none

/-- a fragment with only an `allOf` key. -/
def allOfFragment (ls : List Schema) : Schema :=
  Schema.mk false TypeField.none OptSchema.none PropList.nil OptSchema.none Option.none
    OptSchemaList.none OptSchemaList.none (OptSchemaList.some (SchemaList.ofList ls))
    Option.none

/-!
The claims.
-/

/-- C9: the schema type resolver is a total function: every raw schema
fragment resolves to some annotation string (the resolver is a total Lean
function, so it terminates and never fails), and unrecognized shapes
degrade without error: the empty fragment resolves to `Any`, an
unrecognized type string to the conservative `str` fallback, an array
without `items` to `list[Any]`, an empty enum list to `str`. -/
theorem C9_resolver_total :
    (∀ s : Schema, ∃ t : String, get_python_type s = t) ∧
    get_python_type (typeOnly TypeField.none) = "Any" ∧
    get_python_type (typeOnly (TypeField.str "frobnicate")) = "str" ∧
    get_python_type (typeOnly (TypeField.str "array")) = "list[Any]" ∧
    get_python_type (enumOnly []) = "str" :=
  ⟨fun s => ⟨get_python_type s, rfl⟩, by decide, by decide, by decide, by decide⟩

/-- C3 counterexample: on the fragment with `type: "integer"` and
`enum: [1, 2]` the resolver returns the integer primitive annotation
`int` — the `param_type == 'integer'` branch precedes the `'enum' in
param_info` branch — not the enum result `Literal[1, 2]` the claim
requires. -/
theorem C3_counterexample :
    get_python_type (typeEnum (TypeField.str "integer") [JLit.i 1, JLit.i 2]) = "int" ∧
    get_python_type (typeEnum (TypeField.str "integer") [JLit.i 1, JLit.i 2]) ≠
      enumResolve [JLit.i 1, JLit.i 2] :=
  ⟨by decide, by decide⟩

/-- C3 amended: the enum rule is applied only after the six recognized
singular types.  A fragment whose (singular) type is integer, number,
boolean, array, object or null resolves by its type branch even when an
enum list is present — it resolves exactly as the same fragment with the
enum key removed — and in particular type `integer` with an enum resolves
to `int`; a fragment whose singular type is absent or not among the six
recognized kinds (in particular type `string`) resolves through the enum
rule. -/
theorem C3_amended :
    (∀ (s : Schema) (vs : List JLit) (t : String),
      s.ref = false → s.enum = Option.some vs → s.type = TypeField.str t →
      t ∈ (["integer", "number", "boolean", "array", "object", "null"] : List String) →
      get_python_type s = get_python_type (s.withEnum Option.none)) ∧
    (∀ (s : Schema) (vs : List JLit),
      s.ref = false → s.type = TypeField.str "integer" → s.enum = Option.some vs →
      get_python_type s = "int") ∧
    (∀ (s : Schema) (vs : List JLit),
      s.ref = false → s.enum = Option.some vs →
      (s.type = TypeField.none ∨
        ∃ t, s.type = TypeField.str t ∧
          t ∉ (["integer", "number", "boolean", "array", "object", "null"] : List String)) →
      get_python_type s = enumResolve vs) := by
  refine ⟨?_, ?_, ?_⟩
  · intro s vs t href henum hty hmem
    have href2 : (s.withEnum Option.none).ref = false := by
      rw [withEnum_ref, href]
    have hty2 : (s.withEnum Option.none).type = TypeField.str t := by
      rw [withEnum_type, hty]
    rw [get_python_type_eq s, get_python_type_eq (s.withEnum Option.none),
      resolveStep_type_str href hty, resolveStep_type_str href2 hty2]
    simp only [List.mem_cons, List.not_mem_nil, or_false] at hmem
    rcases hmem with rfl | rfl | rfl | rfl | rfl | rfl
    · rw [typeChain_integer, typeChain_integer]
    · rw [typeChain_number, typeChain_number]
    · rw [typeChain_boolean, typeChain_boolean]
    · rw [typeChain_array, typeChain_array, arrayBranch_withEnum]
    · rw [typeChain_object, typeChain_object, objectBranch_withEnum]
    · rw [typeChain_null, typeChain_null]
  · intro s vs href hty henum
    rw [get_python_type_eq, resolveStep_type_str href hty, typeChain_integer]
  · intro s vs href henum hcase
    rw [get_python_type_eq]
    rcases hcase with hty | ⟨t, hty, hmem⟩
    · rw [resolveStep_type_none href hty, typeChain_pt_none, enumBranch_enum henum]
    · simp only [List.mem_cons, List.not_mem_nil, or_false, not_or] at hmem
      obtain ⟨h1, h2, h3, h4, h5, h6⟩ := hmem
      rw [resolveStep_type_str href hty, typeChain_other h1 h2 h3 h4 h5 h6,
        enumBranch_enum henum]

/-- C3 witness: the amended claim applied at concrete fragments — the
enum key is ignored under type `number`, type `integer` with an enum
resolves to `int`, and an enum without a type resolves by the enum
rule. -/
theorem C3_witness :
    get_python_type (typeEnum (TypeField.str "number") [JLit.s "a"]) =
      get_python_type ((typeEnum (TypeField.str "number") [JLit.s "a"]).withEnum
        Option.none) ∧
    get_python_type (typeEnum (TypeField.str "integer") [JLit.s "a"]) = "int" ∧
    get_python_type (enumOnly [JLit.s "a"]) = enumResolve [JLit.s "a"] :=
  ⟨C3_amended.1 (typeEnum (TypeField.str "number") [JLit.s "a"]) [JLit.s "a"] "number"
    rfl rfl rfl (by decide),
   C3_amended.2.1 (typeEnum (TypeField.str "integer") [JLit.s "a"]) [JLit.s "a"] rfl rfl rfl,
   C3_amended.2.2 (enumOnly [JLit.s "a"]) [JLit.s "a"] rfl rfl (Or.inl rfl)⟩

/-- C4 counterexample: the mixed enum `["a", 1]` resolves to
`Union[int, str]` — `sorted(type_set)` orders the variants
alphabetically — not to the first-occurrence order `Union[str, int]` the
claim requires. -/
theorem C4_counterexample :
    get_python_type (enumOnly [JLit.s "a", JLit.i 1]) = "Union[int, str]" ∧
    get_python_type (enumOnly [JLit.s "a", JLit.i 1]) ≠ "Union[str, int]" :=
  ⟨by decide, by decide⟩

/-- C4 amended: a mixed-kind enum resolves to a `Union` over one
primitive name per distinct literal kind present — booleans counting as
integers, per Python `isinstance` — de-duplicated and sorted in ascending
string order (`Any` before `bool` before `float` before `int` before
`str`), not in order of first occurrence. -/
theorem C4_amended (s : Schema) (vs : List JLit)
    (href : s.ref = false) (hty : s.type = TypeField.none)
    (henum : s.enum = Option.some vs) (hne : vs ≠ [])
    (hstr : ¬ vs.all JLit.isStr = true) (hint : ¬ vs.all JLit.isInt = true)
    (hnum : ¬ vs.all JLit.isNum = true) :
    get_python_type s = "Union[" ++ String.intercalate ", " (sortedKinds vs) ++ "]" := by
  rw [get_python_type_eq, resolveStep_type_none href hty, typeChain_pt_none,
    enumBranch_enum henum]
  unfold enumResolve
  rw [if_neg (by simp [hne]), if_neg hstr, if_neg hint, if_neg hnum]

/-- C4 witness: the amended claim applied at the string/integer mix. -/
theorem C4_witness :
    get_python_type (enumOnly [JLit.s "a", JLit.i 1]) =
      "Union[" ++ String.intercalate ", " (sortedKinds [JLit.s "a", JLit.i 1]) ++ "]" :=
  C4_amended (enumOnly [JLit.s "a", JLit.i 1]) [JLit.s "a", JLit.i 1] rfl rfl rfl
    (List.cons_ne_nil _ _) (by decide) (by decide) (by decide)

/-- C5 counterexample: the duplicated type list `["string", "string"]`
resolves to `Union[str, str]` — the resolved variants are joined without
any de-duplication — not to the de-duplicated `Union[str]` (nor to a
collapsed `str`) the claim requires. -/
theorem C5_counterexample :
    get_python_type (typeOnly (TypeField.list ["string", "string"])) = "Union[str, str]" ∧
    get_python_type (typeOnly (TypeField.list ["string", "string"])) ≠ "Union[str]" ∧
    get_python_type (typeOnly (TypeField.list ["string", "string"])) ≠ "str" :=
  ⟨by decide, by decide, by decide⟩

/-- C5 amended: a fragment whose `type` is a non-singleton list resolves
each member independently — substituting it as the singular type of a
copy of the fragment — and wraps the results in a `Union` annotation in
declaration order, without removing duplicates. -/
theorem C5_amended (s : Schema) (ts : List String)
    (href : s.ref = false) (hty : s.type = TypeField.list ts) (hlen : ts.length ≠ 1) :
    get_python_type s =
      "Union[" ++ String.intercalate ", "
        (ts.map (fun t => get_python_type (s.withType (TypeField.str t)))) ++ "]" := by
  rw [get_python_type_eq, resolveStep_type_list href hty hlen]

/-- C5 witness: the amended claim applied at `{"type": ["string",
"integer"]}`, which resolves to `Union[str, int]`. -/
theorem C5_witness :
    get_python_type (typeOnly (TypeField.list ["string", "integer"])) =
      "Union[" ++ String.intercalate ", "
        ((["string", "integer"] : List String).map (fun t =>
          get_python_type ((typeOnly (TypeField.list ["string", "integer"])).withType
            (TypeField.str t)))) ++ "]" ∧
    get_python_type (typeOnly (TypeField.list ["string", "integer"])) = "Union[str, int]" :=
  ⟨C5_amended (typeOnly (TypeField.list ["string", "integer"])) ["string", "integer"]
    rfl rfl (by decide), by decide⟩

/-- C6: an `allOf` fragment whose members are all object schemas resolves
exactly as the single object fragment holding the merged property map —
the merge folds `dict.update` left to right, so later members overwrite
earlier ones on name collision — and when some member is not an object
schema the fragment degrades to the open string map `dict[str, Any]`. -/
theorem C6_allOf_merge :
    (∀ (s : Schema) (ls : List Schema),
      s.ref = false → s.type = TypeField.none → s.enum = Option.none →
      s.anyOf = Option.none → s.oneOf = Option.none → s.allOf = Option.some ls →
      (∀ m ∈ ls, m.type = TypeField.str "object") →
      get_python_type s = get_python_type (objFragment (mergeProps ls))) ∧
    (∀ (s : Schema) (ls : List Schema),
      s.ref = false → s.type = TypeField.none → s.enum = Option.none →
      s.anyOf = Option.none → s.oneOf = Option.none → s.allOf = Option.some ls →
      (∃ m ∈ ls, ¬ m.type = TypeField.str "object") →
      get_python_type s = "dict[str, Any]") := by
  constructor
  · intro s ls href hty henum hao hoo hall hobj
    rw [get_python_type_eq, resolveStep_type_none href hty, typeChain_pt_none,
      enumBranch_no_enum henum (by simp), anyOrBranch_none hao hoo, allOfBranch_some hall,
      get_python_type_eq (objFragment (mergeProps ls)),
      @resolveStep_type_str get_python_type (objFragment (mergeProps ls)) "object" rfl rfl,
      typeChain_object]
    rw [mergeAllOfAux_fst_true hobj []]
    cases hmp : mergeProps ls with
    | nil =>
      rw [@objectBranch_nil get_python_type (objFragment [])
        (by simp [objFragment]) rfl]
      simp
    | cons q qs =>
      have hlsne : ls.isEmpty = false := by
        cases ls with
        | nil =>
          rw [show mergeProps [] = [] from rfl] at hmp
          cases hmp
        | cons a as => rfl
      rw [@objectBranch_cons get_python_type (objFragment (q :: qs)) q qs
        (by simp [objFragment])]
      rw [hlsne]
      simp
  · intro s ls href hty henum hao hoo hall hex
    rw [get_python_type_eq, resolveStep_type_none href hty, typeChain_pt_none,
      enumBranch_no_enum henum (by simp), anyOrBranch_none hao hoo, allOfBranch_some hall]
    rw [mergeAllOfAux_fst_false hex []]
    simp

/-- C6 witness: the amended claim applied to a two-member all-object
`allOf` with a colliding property name, and to an `allOf` with a
non-object member. -/
theorem C6_witness :
    get_python_type (allOfFragment
        [objFragment [("a", typeOnly (TypeField.str "string"))],
         objFragment [("a", typeOnly (TypeField.str "integer")),
                      ("b", typeOnly (TypeField.str "string"))]]) =
      get_python_type (objFragment (mergeProps
        ((SchemaList.ofList
          [objFragment [("a", typeOnly (TypeField.str "string"))],
           objFragment [("a", typeOnly (TypeField.str "integer")),
                        ("b", typeOnly (TypeField.str "string"))]]).toList))) ∧
    get_python_type (allOfFragment
        [objFragment [("a", typeOnly (TypeField.str "string"))],
         objFragment [("a", typeOnly (TypeField.str "integer")),
                      ("b", typeOnly (TypeField.str "string"))]]) =
      "dict[str, Union[int, str]]" ∧
    get_python_type (allOfFragment
        [objFragment [("a", typeOnly (TypeField.str "string"))],
         typeOnly (TypeField.str "integer")]) = "dict[str, Any]" :=
  ⟨C6_allOf_merge.1 _ _ rfl rfl rfl rfl rfl rfl (by decide),
   by decide,
   C6_allOf_merge.2 _ _ rfl rfl rfl rfl rfl rfl
     ⟨typeOnly (TypeField.str "integer"),
      by exact List.mem_cons_of_mem _ (List.mem_cons_self _ _),
      by decide⟩⟩

/-- the optional parameter of the C1 scenario: integer typed, declared
default `10`, absent from the required list. -/
def countInfo : PropInfo := ⟨typeOnly (TypeField.str "integer"), Option.some (JVal.i 10)⟩

/-- C1 counterexample: for a parameter `count` that is absent from
`required` and declares the default `10`, the built parameter is indeed
optional with default `10`; but invoking the stub with the argument
omitted binds the Python default `10`, which the `v is not None` filter
keeps, so the forwarded payload does contain the key `count` — the claim
requires it to be absent. -/
theorem C1_counterexample :
    buildSignature [("count", countInfo)] [] =
      [⟨"count", "int", ParamKind.withDefault (JVal.i 10)⟩] ∧
    stubPayload (buildSignature [("count", countInfo)] []) [] =
      Option.some [("count", JVal.i 10)] ∧
    List.lookup "count" [("count", JVal.i 10)] = Option.some (JVal.i 10) :=
  ⟨rfl, rfl, rfl⟩

/-- C1 amended: a parameter absent from `required` with a non-null
declared default is built optional with that default; when the caller
omits the argument the stub binds the declared default and, the default
not being `None`, forwards the key with the default value — only
`None`-valued arguments are dropped from the payload. -/
theorem C1_amended :
    (∀ (required : List String) (name : String) (info : PropInfo),
      name ∉ required → (info.dflt.getD JVal.none).isNone = false →
      buildParam required name info =
        ⟨name, get_python_type info.schema,
          ParamKind.withDefault (info.dflt.getD JVal.none)⟩) ∧
    (∀ (sig : List ParameterSpec) (args payload : List (String × JVal))
       (p : ParameterSpec) (v : JVal),
      stubPayload sig args = Option.some payload → p ∈ sig →
      p.kind = ParamKind.withDefault v → v.isNone = false →
      List.lookup p.name args = Option.none →
      (p.name, v) ∈ payload) := by
  constructor
  · intro required name info hreq hdv
    unfold buildParam
    rw [if_neg hreq, if_neg (by simp [hdv])]
  · intro sig args payload p v h hp hkind hval hlookup
    unfold stubPayload at h
    split at h
    · rw [Option.some.injEq] at h
      subst h
      have hb : bindParam args p = v := by
        unfold bindParam
        rw [hlookup, hkind]
      apply List.mem_filter.mpr
      refine ⟨List.mem_map.mpr ⟨p, hp, by rw [hb]⟩, ?_⟩
      simp [hval]
    · cases h

/-- C1 witness: the amended claim applied at the `count` parameter and at
the stub invocation that omits it. -/
theorem C1_witness :
    buildParam [] "count" countInfo =
      ⟨"count", get_python_type countInfo.schema,
        ParamKind.withDefault (countInfo.dflt.getD JVal.none)⟩ ∧
    ("count", JVal.i 10) ∈ [("count", JVal.i 10)] :=
  ⟨C1_amended.1 [] "count" countInfo (by simp) rfl,
   C1_amended.2 [⟨"count", "int", ParamKind.withDefault (JVal.i 10)⟩] [] [("count", JVal.i 10)]
     ⟨"count", "int", ParamKind.withDefault (JVal.i 10)⟩ (JVal.i 10) rfl
     (List.mem_cons_self _ _) rfl rfl rfl⟩

/-- C2 counterexample: a parameter named in `required` that also declares
the default `5` is built required with the default discarded — the
`required` membership test precedes the default lookup — not optional
with default `5` as the claim requires. -/
theorem C2_counterexample :
    buildParam ["a"] "a" ⟨typeOnly (TypeField.str "integer"), Option.some (JVal.i 5)⟩ =
      ⟨"a", "int", ParamKind.required⟩ ∧
    (buildParam ["a"] "a" ⟨typeOnly (TypeField.str "integer"),
      Option.some (JVal.i 5)⟩).kind ≠ ParamKind.withDefault (JVal.i 5) :=
  ⟨rfl, fun h => ParamKind.noConfusion h⟩

/-- C2 amended: membership in the schema's `required` list takes
precedence: such a parameter is always built required, its declared
default discarded; and conversely a parameter built with a default is
never in the required list and its default is never null — so no built
parameter is simultaneously required and defaulted. -/
theorem C2_amended :
    (∀ (required : List String) (name : String) (info : PropInfo),
      name ∈ required → (buildParam required name info).kind = ParamKind.required) ∧
    (∀ (required : List String) (name : String) (info : PropInfo) (v : JVal),
      (buildParam required name info).kind = ParamKind.withDefault v →
      name ∉ required ∧ v.isNone = false) := by
  constructor
  · intro required name info hreq
    unfold buildParam
    rw [if_pos hreq]
  · intro required name info v h
    unfold buildParam at h
    by_cases hreq : name ∈ required
    · rw [if_pos hreq] at h
      exact absurd h (by simp)
    · rw [if_neg hreq] at h
      by_cases hdv : (info.dflt.getD JVal.none).isNone
      · rw [if_pos hdv] at h
        exact absurd h (by simp)
      · rw [if_neg hdv] at h
        simp only [ParamKind.withDefault.injEq] at h
        rw [Bool.not_eq_true] at hdv
        exact ⟨hreq, h ▸ hdv⟩

/-- C2 witness: the amended claim applied at a required parameter with a
declared default and at a defaulted optional parameter. -/
theorem C2_witness :
    (buildParam ["a"] "a" ⟨typeOnly (TypeField.str "integer"),
      Option.some (JVal.i 5)⟩).kind = ParamKind.required ∧
    ("b" ∉ (["a"] : List String) ∧ (JVal.i 7).isNone = false) :=
  ⟨C2_amended.1 ["a"] "a" ⟨typeOnly (TypeField.str "integer"), Option.some (JVal.i 5)⟩
    (List.mem_singleton.mpr rfl),
   C2_amended.2 ["a"] "b" ⟨typeOnly (TypeField.str "integer"), Option.some (JVal.i 7)⟩
    (JVal.i 7) rfl⟩

/-- the duplicated capability of the C7 scenario. -/
def dupTool : Tool := ⟨"x", "a tool", [], []⟩

/-- C7 counterexample: discovering the capability `x` twice in one pass
does not fail and does not publish zero stubs: the registration loop has
no duplicate-name check and performs one registration per discovered
tool, so both registrations under the name `x` are issued. -/
theorem C7_counterexample :
    (setupRegistrations [dupTool, dupTool]).length = 2 ∧
    (setupRegistrations [dupTool, dupTool]).map Prod.fst = ["x", "x"] ∧
    setupRegistrations [dupTool, dupTool] ≠ [] :=
  ⟨rfl, rfl, List.cons_ne_nil _ _⟩

/-- C7 amended: registry construction never fails and performs no
duplicate detection: for every discovered tool list — duplicate names
included — exactly one registration per tool is issued, in discovery
order, under the tool's own name; whether a later registration replaces
an earlier homonymous one is the local host's policy, outside this
code. -/
theorem C7_amended (tools : List Tool) :
    (setupRegistrations tools).length = tools.length ∧
    (setupRegistrations tools).map Prod.fst = tools.map Tool.name := by
  constructor
  · simp [setupRegistrations]
  · simp [setupRegistrations]

/-- C8: discovery happens exactly once, inside a session opened and
closed before any registration; and every admissible stub invocation
opens a fresh session, performs the single forwarded call, closes the
session, and returns the remote outcome unchanged — the trace is the same
three-event session scope whether the outcome is success, a remote error
or a transport error. -/
theorem C8_session_lifecycle :
    (∀ tools : List Tool,
      (setupTrace tools).countP Event.isListTools = 1 ∧
      setupTrace tools =
        [Event.openSession, Event.listTools, Event.closeSession] ++
          registrationPhase tools ∧
      ∀ e ∈ registrationPhase tools, e.isRegister = true) ∧
    (∀ (remote : String → List (String × JVal) → CallOutcome) (toolName : String)
       (sig : List ParameterSpec) (args payload : List (String × JVal)),
      stubPayload sig args = Option.some payload →
      stubInvoke remote toolName sig args =
        Option.some (remote toolName payload,
          [Event.openSession, Event.callRemote toolName payload, Event.closeSession])) := by
  constructor
  · intro tools
    refine ⟨?_, rfl, ?_⟩
    · show (discoveryPhase ++ registrationPhase tools).countP Event.isListTools = 1
      rw [List.countP_append]
      have h1 : discoveryPhase.countP Event.isListTools = 1 := rfl
      have h2 : (registrationPhase tools).countP Event.isListTools = 0 := by
        unfold registrationPhase
        rw [List.countP_map]
        exact List.countP_eq_zero.mpr
          (fun t _ => by simp [Function.comp, Event.isListTools])
      rw [h1, h2]
    · intro e he
      rcases List.mem_map.mp he with ⟨t, _, rfl⟩
      rfl
  · intro remote toolName sig args payload h
    unfold stubInvoke
    rw [h]
    rfl

/-- a demonstration remote endpoint for the C8 witness. -/
def demoRemote : String → List (String × JVal) → CallOutcome :=
  fun _ _ => CallOutcome.success (JVal.i 5)

/-- C8 witness: the stub-invocation half of the claim applied at the
`add_numbers`-style call with payload `{a: 2}`. -/
theorem C8_witness :
    stubInvoke demoRemote "add_numbers" [⟨"a", "float", ParamKind.required⟩]
        [("a", JVal.i 2)] =
      Option.some (demoRemote "add_numbers" [("a", JVal.i 2)],
        [Event.openSession, Event.callRemote "add_numbers" [("a", JVal.i 2)],
         Event.closeSession]) :=
  C8_session_lifecycle.2 demoRemote "add_numbers" [⟨"a", "float", ParamKind.required⟩]
    [("a", JVal.i 2)] [("a", JVal.i 2)] rfl

/-- C10: the stub body's `v is not None` filter ranges over every
parameter of the call-args dict, required ones included: no forwarded
payload ever contains a `None` value under any key, and a parameter to
which the caller explicitly passed `None` — even a required one — has its
key omitted from the payload. -/
theorem C10_none_filter :
    (∀ (sig : List ParameterSpec) (args payload : List (String × JVal)),
      stubPayload sig args = Option.some payload →
      ∀ kv ∈ payload, kv.2.isNone = false) ∧
    (∀ (sig : List ParameterSpec) (args payload : List (String × JVal))
       (p : ParameterSpec),
      stubPayload sig args = Option.some payload → p ∈ sig →
      List.lookup p.name args = Option.some JVal.none →
      ∀ v : JVal, ¬ (p.name, v) ∈ payload) := by
  constructor
  · intro sig args payload h kv hkv
    unfold stubPayload at h
    split at h
    · rw [Option.some.injEq] at h
      subst h
      have := (List.mem_filter.mp hkv).2
      simpa using this
    · cases h
  · intro sig args payload p h hp hlookup v hv
    unfold stubPayload at h
    split at h
    · rw [Option.some.injEq] at h
      subst h
      rcases List.mem_filter.mp hv with ⟨hmem, hpred⟩
      rcases List.mem_map.mp hmem with ⟨q, hq, hqe⟩
      have hname : q.name = p.name := congrArg Prod.fst hqe
      have hval : bindParam args q = v := congrArg Prod.snd hqe
      have hnone : bindParam args q = JVal.none := by
        unfold bindParam
        rw [hname, hlookup]
      rw [hnone] at hval
      rw [← hval] at hpred
      simp [JVal.isNone] at hpred
    · cases h

/-- C10 witness: a required parameter explicitly passed `None` is dropped
from the forwarded payload. -/
theorem C10_witness :
    stubPayload [⟨"a", "int", ParamKind.required⟩] [("a", JVal.none)] =
      Option.some [] ∧
    ¬ ("a", JVal.none) ∈ ([] : List (String × JVal)) :=
  ⟨rfl,
   C10_none_filter.2 [⟨"a", "int", ParamKind.required⟩] [("a", JVal.none)] []
     ⟨"a", "int", ParamKind.required⟩ rfl (List.mem_cons_self _ _) rfl JVal.none⟩

end McpProxy
